import Mathlib

/-!
Verification of the decision-and-patch engine of the cert-manager mutating
admission webhook (src/webhook.go), shallowly embedded in Lean 4.

Go `map[string]string` values are modelled as association lists; a `nil`
map is modelled as `none` of the `StrMap` option type, mirroring the places
where the Go code tests a map against `nil`.  Lookup of a missing key
yields the Go zero value `""`, as in Go map indexing.
-/

/-- Association-list lookup, first match wins (Go maps have unique keys,
so on map-shaped inputs this is Go map indexing with the comma-ok form
captured by `Option`). -/
def lookupStr : List (String × String) → String → Option String
  | [], _ => none
  | (k, v) :: rest, key => if k == key then some v else lookupStr rest key

/-- A Go `map[string]string` variable: `none` is the nil map. -/
abbrev StrMap := Option (List (String × String))

/-- Comma-ok lookup on a possibly-nil map. -/
def StrMap.find (m : StrMap) (key : String) : Option String :=
  match m with
  | none => none
  | some l => lookupStr l key

/-- Go map indexing `m[key]`: missing keys (and the nil map) give `""`. -/
def StrMap.getD (m : StrMap) (key : String) : String :=
  (m.find key).getD ""

/-- Comma-ok presence test `_, ok := m[key]`. -/
def StrMap.containsKey (m : StrMap) (key : String) : Bool :=
  (m.find key).isSome

/- Constants from src/webhook.go lines 47-60 and the k8s.io/apimachinery
metav1 namespace constants referenced there. -/

def syncAnnotationKey : String := "kubed.appscode.com/sync"

def originAnnotationKey : String := "kubed.appscode.com/origin"

def certManagerAnnotationKey : String := "cert-manager.io/certificate-name"

def NamespaceSystem : String := "kube-system"

def NamespacePublic : String := "kube-public"

def ignoredNamespaces : List String := [NamespaceSystem, NamespacePublic]

/-- The policy-relevant part of `metav1.ObjectMeta`. -/
structure ObjectMeta where
  Namespace : String
  Name : String
  Annotations : StrMap
deriving DecidableEq, Repr

/-- `metav1.ObjectMeta.GetAnnotations` returns the annotation map field. -/
def ObjectMeta.GetAnnotations (m : ObjectMeta) : StrMap :=
  m.Annotations

/-- src/webhook.go lines 86-96: loop over the ignored list, `false` as soon
as the namespace matches, `true` otherwise. -/
def admissionRequired : List String → ObjectMeta → Bool
  | [], _ => true
  | ns :: rest, metadata =>
    if metadata.Namespace == ns then false else admissionRequired rest metadata

/-- src/webhook.go lines 98-117: exemption check, then the
cert-manager/origin annotation gate. -/
def mutationRequired (ignoredList : List String) (metadata : ObjectMeta) : Bool :=
  let required := admissionRequired ignoredList metadata
  let annotations :=
    match metadata.GetAnnotations with
    | none => ([] : List (String × String))
    | some m => m
  if required then
    if (lookupStr annotations certManagerAnnotationKey).isSome then
      if (lookupStr annotations originAnnotationKey).isSome then
        false
      else
        true
    else
      required
  else
    required

/-- The spec's two-valued decision type for the Policy Evaluator. -/
inductive Decision where
  | Skip
  | Mutate
deriving DecidableEq, Repr

namespace Policy

/-- The spec's `decide(namespace, annotations)` contract, realized by
`mutationRequired` over the fixed `ignoredNamespaces` (the object name
plays no role in the decision). -/
def decide (ns : String) (annotations : StrMap) : Decision :=
  if mutationRequired ignoredNamespaces ⟨ns, "", annotations⟩ then
    Decision.Mutate
  else
    Decision.Skip

end Policy

/- Patch builder, src/webhook.go lines 74-78 and 119-147. -/

/-- A JSON value placed in a patch operation's `Value` field (`interface\x7b\x7d`
in the Go struct): either a plain string or a string-to-string map. -/
inductive PatchValue where
  | str (s : String)
  | map (m : List (String × String))
deriving DecidableEq, Repr

/-- One JSON-Patch operation, struct `patchOperation` of src/webhook.go. -/
structure patchOperation where
  Op : String
  Path : String
  Value : PatchValue
deriving DecidableEq, Repr

/-- src/webhook.go lines 119-139.  The loop body reassigns the local
`target` to a fresh empty map whenever the `add` branch fires, so later
iterations see that empty map rather than the original annotations. -/
def updateAnnotation : StrMap → List (String × String) → List patchOperation
  | _, [] => []
  | target, (key, value) :: rest =>
    if target.isNone || StrMap.getD target key == "" then
      patchOperation.mk "add" "/metadata/annotations" (PatchValue.map [(key, value)]) ::
        updateAnnotation (some []) rest
    else
      patchOperation.mk "replace" ("/metadata/annotations/" ++ key) (PatchValue.str value) ::
        updateAnnotation target rest

/- JSON serialization, modelling Go `encoding/json.Marshal` on the types
above (SetEscapeHTML is on by default, hence the `<`, `>`, `&` escapes;
map keys are emitted in ascending order; a nil slice marshals to `null`).
On these types Marshal never returns an error, so it is total here. -/

/-- Lower-case hex digit. -/
def hexDigit (n : Nat) : String :=
  String.singleton (if n < 10 then Char.ofNat (48 + n) else Char.ofNat (87 + n))

/-- Go JSON escaping of one character (HTML escaping enabled, as in
`json.Marshal`). -/
def escapeChar (c : Char) : String :=
  if c == '"' then "\\\""
  else if c == '\\' then "\\\\"
  else if c == '\n' then "\\n"
  else if c == '\r' then "\\r"
  else if c == '\t' then "\\t"
  else if c == '<' then "\\u003c"
  else if c == '>' then "\\u003e"
  else if c == '&' then "\\u0026"
  else if c.toNat < 32 then "\\u00" ++ hexDigit (c.toNat / 16) ++ hexDigit (c.toNat % 16)
  else if c.toNat == 0x2028 then "\\u2028"
  else if c.toNat == 0x2029 then "\\u2029"
  else String.singleton c

/-- A JSON string literal. -/
def jsonString (s : String) : String :=
  "\"" ++ String.join (s.toList.map escapeChar) ++ "\""

/-- Insert an entry into a key-ascending list (Go marshals map keys in
sorted order). -/
def insertKey (kv : String × String) : List (String × String) → List (String × String)
  | [] => [kv]
  | h :: t => if compare h.1 kv.1 == Ordering.lt then h :: insertKey kv t else kv :: h :: t

/-- Sort entries by key ascending. -/
def sortKeys : List (String × String) → List (String × String)
  | [] => []
  | kv :: t => insertKey kv (sortKeys t)

/-- Marshal of a `map[string]string`. -/
def jsonObject (m : List (String × String)) : String :=
  "\x7b" ++
    String.intercalate ","
      ((sortKeys m).map (fun kv => jsonString kv.1 ++ ":" ++ jsonString kv.2)) ++
  "\x7d"

/-- Marshal of a patch operation's value. -/
def marshalValue : PatchValue → String
  | PatchValue.str s => jsonString s
  | PatchValue.map m => jsonObject m

/-- Marshal of one `patchOperation` (fields in struct order, tags
`op`, `path`, `value`; `Value` is never a nil interface here so
`omitempty` never fires). -/
def marshalOp (p : patchOperation) : String :=
  "\x7b\"op\":" ++ jsonString p.Op ++ ",\"path\":" ++ jsonString p.Path ++
    ",\"value\":" ++ marshalValue p.Value ++ "\x7d"

/-- Marshal of the `[]patchOperation` slice built by `createPatch`; the
slice starts out nil, and a nil slice marshals to `null`. -/
def marshalPatch : List patchOperation → String
  | [] => "null"
  | ops => "[" ++ String.intercalate "," (ops.map marshalOp) ++ "]"

/-- src/webhook.go lines 141-147 (`json.Marshal` cannot fail on this
slice type, so the error result is dropped). -/
def createPatch (availableAnnotations : StrMap) (annotations : List (String × String)) : String :=
  marshalPatch ( updateAnnotation availableAnnotations annotations)

/- Review protocol data model and the handler pipeline,
src/webhook.go lines 150-256. -/

/-- The policy-relevant part of `corev1.Secret`: its embedded object
metadata (other fields play no role in the webhook). -/
structure Secret where
  ObjectMeta : ObjectMeta
deriving DecidableEq, Repr

/-- The raw serialized object carried in `req.Object.Raw`, at the
granularity the handler observes through `json.Unmarshal` into a
`corev1.Secret`: either bytes that decode to a secret, or malformed
bytes whose decoding fails with an error message. -/
inductive RawObject where
  | secretJson (s : Secret)
  | malformed (msg : String)
deriving DecidableEq, Repr

/-- `json.Unmarshal(req.Object.Raw, &secret)` at the observable level. -/
def unmarshalSecret : RawObject → Except String Secret
  | RawObject.secretJson s => Except.ok s
  | RawObject.malformed msg => Except.error msg

/-- The used part of `v1beta1.AdmissionRequest`: the correlation UID and
the raw object (kind, namespace, name, operation and user info are only
logged). -/
structure AdmissionRequest where
  UID : String
  Object : RawObject
deriving DecidableEq, Repr

/-- `v1beta1.PatchTypeJSONPatch`. -/
def PatchTypeJSONPatch : String := "JSONPatch"

/-- The used part of `v1beta1.AdmissionResponse`.  `Result` holds the
`metav1.Status` message when set; `Patch` holds the marshaled patch
bytes; zero value: empty UID, `Allowed` false, all options absent. -/
structure AdmissionResponse where
  UID : String
  Allowed : Bool
  Result : Option String
  Patch : Option String
  PatchType : Option String
deriving DecidableEq, Repr

/-- `v1beta1.AdmissionReview`: nilable request and response pointers. -/
structure AdmissionReview where
  Request : Option AdmissionRequest
  Response : Option AdmissionResponse
deriving DecidableEq, Repr

/-- src/webhook.go lines 150-198.  `availableAnnotations` is declared at
line 153 and never assigned, so `createPatch` always receives the nil
map.  The function immediately dereferences `ar.Request` (for logging at
line 158 and for `req.Object.Raw` at line 162), so a review without a
request panics: that is the `none` result. -/
def mutate (ar : AdmissionReview) : Option AdmissionResponse :=
  match ar.Request with
  | none => none
  | some req =>
    some
      (match unmarshalSecret req.Object with
       | Except.error msg => AdmissionResponse.mk "" false (some msg) none none
       | Except.ok secret =>
         if !(mutationRequired ignoredNamespaces secret.ObjectMeta) then
           AdmissionResponse.mk "" true none none none
         else
           let annotations := [(syncAnnotationKey, "true")]
           let availableAnnotations : StrMap := none
           let patchBytes := createPatch availableAnnotations annotations
           AdmissionResponse.mk "" true none (some patchBytes) (some PatchTypeJSONPatch))

/-- The request body at the granularity `serve` observes: empty (covering
a nil body, a read error, and zero-length bytes, all of which leave
`len(body) == 0`), bytes that `deserializer.Decode` parses into an
`AdmissionReview`, or malformed bytes whose decoding fails with an error
message. -/
inductive BodyBytes where
  | empty
  | review (ar : AdmissionReview)
  | malformed (msg : String)
deriving DecidableEq, Repr

/-- The parts of the HTTP request `serve` reads: the body, the
`Content-Type` header, and the URL path. -/
structure HttpRequest where
  body : BodyBytes
  contentType : String
  urlPath : String
deriving DecidableEq, Repr

/-- Outcome of one `serve` call: an HTTP error status with no envelope
written, a panic (nil `ar.Request` dereferenced inside `mutate`), or a
200 reply carrying the marshaled `admissionReview` envelope. -/
inductive ServeResult where
  | httpError (status : Nat) (msg : String)
  | crash
  | ok (envelope : AdmissionReview)
deriving DecidableEq, Repr

/-- src/webhook.go lines 201-256.  After a failed decode the local `ar`
keeps its zero value, so its `Request` is nil and no UID is copied; on a
path other than `/mutate` no response is produced and the envelope stays
the zero `AdmissionReview`.  `json.Marshal` of the envelope cannot fail
on this type, and the write to the wire is outside the model, so the
500 branches at lines 247-255 are unreachable here. -/
def serve (r : HttpRequest) : ServeResult :=
  match r.body with
  | BodyBytes.empty => ServeResult.httpError 400 "empty body"
  | BodyBytes.malformed msg =>
    if r.contentType != "application/json" then
      ServeResult.httpError 415 "invalid Content-Type, expect `application/json`"
    else
      ServeResult.ok
        (AdmissionReview.mk none (some (AdmissionResponse.mk "" false (some msg) none none)))
  | BodyBytes.review ar =>
    if r.contentType != "application/json" then
      ServeResult.httpError 415 "invalid Content-Type, expect `application/json`"
    else if r.urlPath == "/mutate" then
      match mutate ar with
      | none => ServeResult.crash
      | some resp =>
        match ar.Request with
        | some req => ServeResult.ok (AdmissionReview.mk none (some { resp with UID := req.UID }))
        | none => ServeResult.ok (AdmissionReview.mk none (some resp))
    else
      ServeResult.ok (AdmissionReview.mk none none)

/- Helper lemmas. -/

/-- The ignored-namespace loop returns `true` when the namespace is not
in the list. -/
lemma admissionRequired_eq_true (l : List String) (m : ObjectMeta)
    (h : m.Namespace ∉ l) : admissionRequired l m = true := by
  induction l with
  | nil => rfl
  | cons ns rest ih =>
    have h1 : m.Namespace ≠ ns := fun he => h (by simp [he])
    have h2 : m.Namespace ∉ rest := fun hm => h (List.mem_cons_of_mem _ hm)
    simp [admissionRequired, h1, ih h2]

/-- The ignored-namespace loop returns `false` when the namespace is in
the list. -/
lemma admissionRequired_eq_false (l : List String) (m : ObjectMeta)
    (h : m.Namespace ∈ l) : admissionRequired l m = false := by
  induction l with
  | nil => cases h
  | cons ns rest ih =>
    by_cases he : m.Namespace = ns
    · simp [admissionRequired, he]
    · have hm : m.Namespace ∈ rest := by
        rcases List.mem_cons.mp h with h' | h'
        · exact absurd h' he
        · exact h'
      simp [admissionRequired, he, ih hm]

/-- C1: outside the exempt namespaces, `decide` is `Mutate` when the
cert-manager issuer marker is absent; `Mutate` when the issuer marker is
present and the origin marker absent; `Skip` when both markers are
present. -/
theorem C1_decide_nonexempt (ns : String) (ann : StrMap)
    (h : ns ∉ ignoredNamespaces) :
    (StrMap.containsKey ann certManagerAnnotationKey = false →
      Policy.decide ns ann = Decision.Mutate) ∧
    (StrMap.containsKey ann certManagerAnnotationKey = true →
      StrMap.containsKey ann originAnnotationKey = false →
      Policy.decide ns ann = Decision.Mutate) ∧
    (StrMap.containsKey ann certManagerAnnotationKey = true →
      StrMap.containsKey ann originAnnotationKey = true →
      Policy.decide ns ann = Decision.Skip) := by
  have hreq : admissionRequired ignoredNamespaces (ObjectMeta.mk ns "" ann) = true :=
    admissionRequired_eq_true _ _ h
  refine ⟨?_, ?_, ?_⟩
  · intro hcm
    cases ann with
    | none =>
      simp [Policy.decide, mutationRequired, ObjectMeta.GetAnnotations, hreq, lookupStr]
    | some m =>
      simp [StrMap.containsKey, StrMap.find] at hcm
      simp [Policy.decide, mutationRequired, ObjectMeta.GetAnnotations, hreq, hcm]
  · intro hcm hor
    cases ann with
    | none => simp [StrMap.containsKey, StrMap.find] at hcm
    | some m =>
      simp [StrMap.containsKey, StrMap.find] at hcm hor
      simp [Policy.decide, mutationRequired, ObjectMeta.GetAnnotations, hreq, hcm, hor]
  · intro hcm hor
    cases ann with
    | none => simp [StrMap.containsKey, StrMap.find] at hcm
    | some m =>
      simp [StrMap.containsKey, StrMap.find] at hcm hor
      simp [Policy.decide, mutationRequired, ObjectMeta.GetAnnotations, hreq, hcm, hor]

/-- C1 witness: in namespace `default` with only the issuer marker,
`decide` is `Mutate`. -/
theorem C1_decide_nonexempt_witness :
    Policy.decide "default" (some [(certManagerAnnotationKey, "c")]) = Decision.Mutate :=
  (C1_decide_nonexempt "default" (some [(certManagerAnnotationKey, "c")])
    (by decide)).2.1 (by decide) (by decide)

/-- C2: in an exempt namespace (`kube-system`, `kube-public`), `decide`
is `Skip` whatever the annotations are, even with the issuer marker. -/
theorem C2_decide_exempt (ns : String) (ann : StrMap)
    (h : ns ∈ ignoredNamespaces) :
    Policy.decide ns ann = Decision.Skip := by
  have hreq : admissionRequired ignoredNamespaces (ObjectMeta.mk ns "" ann) = false :=
    admissionRequired_eq_false _ _ h
  cases ann with
  | none => simp [Policy.decide, mutationRequired, ObjectMeta.GetAnnotations, hreq]
  | some m => simp [Policy.decide, mutationRequired, ObjectMeta.GetAnnotations, hreq]

/-- C2 witness: `kube-system` with the issuer marker still yields `Skip`. -/
theorem C2_decide_exempt_witness :
    Policy.decide "kube-system" (some [(certManagerAnnotationKey, "c")]) = Decision.Skip :=
  C2_decide_exempt "kube-system" (some [(certManagerAnnotationKey, "c")]) (by decide)

/-- C3 counterexample: the key `"k"` is present with the non-empty value
`"old"` in the existing annotations, yet when an earlier key of the
desired map takes the `add` branch (which resets the loop's `target` to
an empty map), the builder emits no `replace` operation at all for
`"k"`. -/
theorem C3_claim_counterexample :
    StrMap.getD (some [("k", "old")]) "k" = "old" ∧
    ∀ op ∈ updateAnnotation (some [("k", "old")]) [("b", "v"), ("k", "new")],
      op.Op ≠ "replace" := by decide

/-- C3 (amended): when every key of the desired annotations is present
with a non-empty value in the existing annotations — so no earlier
iteration takes the `add` branch and resets `target` — the builder emits
exactly one `replace` operation per key, targeting that key's path with
the new value, in order. -/
theorem C3_replace_inorder (l : List (String × String)) (added : List (String × String))
    (h : ∀ kv ∈ added, StrMap.getD (some l) kv.1 ≠ "") :
    updateAnnotation (some l) added =
      added.map (fun kv =>
        patchOperation.mk "replace" ("/metadata/annotations/" ++ kv.1) (PatchValue.str kv.2)) := by
  induction added with
  | nil => rfl
  | cons kv rest ih =>
    have h1 : StrMap.getD (some l) kv.1 ≠ "" := h kv (List.mem_cons_self _ _)
    have h2 : ∀ kv' ∈ rest, StrMap.getD (some l) kv'.1 ≠ "" :=
      fun kv' hm => h kv' (List.mem_cons_of_mem _ hm)
    rcases kv with ⟨key, value⟩
    simp only [ updateAnnotation, Option.isNone_some, Bool.false_or]
    rw [if_neg (by simpa using h1)]
    simp [ih h2]

/-- C3 witness: `build(\x7b"k":"old"\x7d, \x7b"k":"new"\x7d)` is exactly one
`replace` at the key's path with the new value. -/
theorem C3_replace_inorder_witness :
    updateAnnotation (some [("k", "old")]) [("k", "new")] =
      [patchOperation.mk "replace" "/metadata/annotations/k" (PatchValue.str "new")] := by
  rw [C3_replace_inorder [("k", "old")] [("k", "new")] (by decide)]
  decide

/-- Any key that is missing or empty in the loop's current `target`
produces the container-level `add` operation, whatever branches the
other keys take (the `add` branch can only shrink `target` to the empty
map, which keeps the key missing). -/
lemma updateAnnotation_add_mem (key value : String) :
    ∀ (added : List (String × String)) (target : StrMap),
      (key, value) ∈ added → StrMap.getD target key = "" →
      patchOperation.mk "add" "/metadata/annotations" (PatchValue.map [(key, value)]) ∈
        updateAnnotation target added := by
  intro added
  induction added with
  | nil => intro target hmem _; cases hmem
  | cons kv rest ih =>
    intro target hmem hget
    rcases kv with ⟨k0, v0⟩
    rcases List.mem_cons.mp hmem with heq | hmem'
    · obtain ⟨hk, hv⟩ := Prod.mk.injEq .. ▸ heq
      subst hk; subst hv
      have hcond : (target.isNone || (StrMap.getD target key == "")) = true := by
        simp [hget]
      simp only [ updateAnnotation, hcond, if_true]
      exact List.mem_cons_self _ _
    · by_cases hcond : (target.isNone || (StrMap.getD target k0 == "")) = true
      · have htail := ih (some []) hmem' (by simp [StrMap.getD, StrMap.find, lookupStr])
        simp only [ updateAnnotation, hcond, if_true]
        exact List.mem_cons_of_mem _ htail
      · have htail := ih target hmem' hget
        simp only [ updateAnnotation, hcond, if_false]
        exact List.mem_cons_of_mem _ htail

/-- C5: every key of the desired annotations that is missing or empty in
the existing annotations yields an `add` operation against the whole
annotations container whose value is the single-key mapping; and
`build(\x7b\x7d, \x7b"k":"v"\x7d)` is exactly that one `add` operation. -/
theorem C5_add_ops :
    (∀ (target : StrMap) (added : List (String × String)) (key value : String),
        (key, value) ∈ added → StrMap.getD target key = "" →
        patchOperation.mk "add" "/metadata/annotations" (PatchValue.map [(key, value)]) ∈
          updateAnnotation target added) ∧
    updateAnnotation (some []) [("k", "v")] =
      [patchOperation.mk "add" "/metadata/annotations" (PatchValue.map [("k", "v")])] :=
  ⟨fun target added key value hmem hget =>
    updateAnnotation_add_mem key value added target hmem hget, by decide⟩

/-- C5 witness: `build(\x7b\x7d, \x7b"k":"v"\x7d)` has length one and contains
the container-level `add` with value `\x7b"k":"v"\x7d`. -/
theorem C5_add_ops_witness :
    ( updateAnnotation (some []) [("k", "v")]).length = 1 ∧
    patchOperation.mk "add" "/metadata/annotations" (PatchValue.map [("k", "v")]) ∈
      updateAnnotation (some []) [("k", "v")] :=
  ⟨by decide, C5_add_ops.1 (some []) [("k", "v")] "k" "v" (by decide) (by decide)⟩

/-- C4: whenever the embedded secret decodes and the policy requires
mutation, `mutate` allows the request and attaches exactly the
one-element JSON-Patch adding the sync annotation, whatever the secret's
existing annotations are (the handler passes the never-assigned nil
`availableAnnotations` to the builder, so the `replace` branch is
unreachable on this path). -/
theorem C4_mutate_patch (ar : AdmissionReview) (req : AdmissionRequest) (secret : Secret)
    (hreq : ar.Request = some req)
    (hdec : unmarshalSecret req.Object = Except.ok secret)
    (hmut : mutationRequired ignoredNamespaces secret.ObjectMeta = true) :
    mutate ar = some (AdmissionResponse.mk "" true none
      (some "[\x7b\"op\":\"add\",\"path\":\"/metadata/annotations\",\"value\":\x7b\"kubed.appscode.com/sync\":\"true\"\x7d\x7d]")
      (some PatchTypeJSONPatch)) := by
  simp only [mutate, hreq]
  rw [hdec]
  simp only [hmut, Bool.not_true, Bool.false_eq_true, if_false]
  decide

/-- C4 witness: a secret in `default` carrying the issuer marker with a
non-empty existing annotation map still gets the container-level `add`
patch. -/
theorem C4_mutate_patch_witness :
    mutate
      (AdmissionReview.mk
        (some (AdmissionRequest.mk "u1"
          (RawObject.secretJson
            (Secret.mk (ObjectMeta.mk "default" "s"
              (some [(certManagerAnnotationKey, "crt"), (syncAnnotationKey, "old")]))))))
        none) =
    some (AdmissionResponse.mk "" true none
      (some "[\x7b\"op\":\"add\",\"path\":\"/metadata/annotations\",\"value\":\x7b\"kubed.appscode.com/sync\":\"true\"\x7d\x7d]")
      (some PatchTypeJSONPatch)) :=
  C4_mutate_patch _
    (AdmissionRequest.mk "u1"
      (RawObject.secretJson
        (Secret.mk (ObjectMeta.mk "default" "s"
          (some [(certManagerAnnotationKey, "crt"), (syncAnnotationKey, "old")])))))
    (Secret.mk (ObjectMeta.mk "default" "s"
      (some [(certManagerAnnotationKey, "crt"), (syncAnnotationKey, "old")])))
    rfl rfl (by decide)

/-- C6: whenever the body decodes to a review whose request is present
and `serve` writes a reply envelope carrying a response, the response's
UID equals the inbound request's UID. -/
theorem C6_uid_echo (r : HttpRequest) (ar : AdmissionReview) (req : AdmissionRequest)
    (env : AdmissionReview) (resp : AdmissionResponse)
    (hbody : r.body = BodyBytes.review ar) (hreq : ar.Request = some req)
    (hserve : serve r = ServeResult.ok env) (hresp : env.Response = some resp) :
    resp.UID = req.UID := by
  rcases r with ⟨b, ct, p⟩
  simp only at hbody
  subst hbody
  cases hct : ct != "application/json" with
  | true => simp [serve, hct] at hserve
  | false =>
    cases hp : p == "/mutate" with
    | false =>
      simp [serve, hct, hp] at hserve
      rw [← hserve] at hresp
      simp at hresp
    | true =>
      simp [serve, hct, hp, mutate, hreq] at hserve
      rw [← hserve] at hresp
      simp at hresp
      rw [← hresp]

/-- C7: a non-empty JSON body that fails to decode produces a 200 reply
whose envelope carries the decode error message as the status message,
with the allowed flag left false and no patch.  Both failure modes are
covered: a malformed review envelope (decode fails in `serve`, whatever
the URL path, with no UID to echo), and a well-formed envelope whose
embedded Secret body is malformed (`json.Unmarshal` fails inside
`mutate`, the error response is wrapped with the request's UID echoed). -/
theorem C7_decode_error :
    (∀ (msg p : String),
      serve (HttpRequest.mk (BodyBytes.malformed msg) "application/json" p) =
        ServeResult.ok
          (AdmissionReview.mk none
            (some (AdmissionResponse.mk "" false (some msg) none none)))) ∧
    (∀ (ar : AdmissionReview) (req : AdmissionRequest) (msg : String),
      ar.Request = some req → req.Object = RawObject.malformed msg →
      serve (HttpRequest.mk (BodyBytes.review ar) "application/json" "/mutate") =
        ServeResult.ok
          (AdmissionReview.mk none
            (some (AdmissionResponse.mk req.UID false (some msg) none none)))) := by
  constructor
  · intro msg p
    simp [serve]
  · intro ar req msg hreq hobj
    simp [serve, mutate, hreq, hobj, unmarshalSecret]

/-- C7 witness: a well-formed review whose embedded Secret bytes are
malformed gets a 200 envelope carrying the unmarshal error message,
allowed left false, with the request UID echoed. -/
theorem C7_decode_error_witness :
    serve (HttpRequest.mk
      (BodyBytes.review
        (AdmissionReview.mk
          (some (AdmissionRequest.mk "uid-7" (RawObject.malformed "bad secret")))
          none))
      "application/json" "/mutate") =
      ServeResult.ok
        (AdmissionReview.mk none
          (some (AdmissionResponse.mk "uid-7" false (some "bad secret") none none))) :=
  C7_decode_error.2
    (AdmissionReview.mk
      (some (AdmissionRequest.mk "uid-7" (RawObject.malformed "bad secret")))
      none)
    (AdmissionRequest.mk "uid-7" (RawObject.malformed "bad secret"))
    "bad secret" rfl rfl

/-- C8: an empty body is answered with HTTP 400 and no envelope; a
non-empty body with a content type other than `application/json` is
answered with HTTP 415 and no envelope. -/
theorem C8_transport_errors :
    (∀ ct p, serve (HttpRequest.mk BodyBytes.empty ct p) =
      ServeResult.httpError 400 "empty body") ∧
    (∀ b ct p, b ≠ BodyBytes.empty → ct ≠ "application/json" →
      serve (HttpRequest.mk b ct p) =
        ServeResult.httpError 415 "invalid Content-Type, expect `application/json`") := by
  constructor
  · intro ct p
    rfl
  · intro b ct p hb hct
    cases b with
    | empty => exact absurd rfl hb
    | malformed msg => simp [serve, hct]
    | review ar => simp [serve, hct]

/-- C8 witness: a malformed body with content type `text/plain` is
answered with HTTP 415. -/
theorem C8_transport_errors_witness :
    serve (HttpRequest.mk (BodyBytes.malformed "x") "text/plain" "/mutate") =
      ServeResult.httpError 415 "invalid Content-Type, expect `application/json`" :=
  C8_transport_errors.2 (BodyBytes.malformed "x") "text/plain" "/mutate"
    (by decide) (by decide)

/-- C6 witness: a successful mutation reply echoes the request UID
`uid-1`. -/
theorem C6_uid_echo_witness :
    (AdmissionResponse.mk "uid-1" true none
      (some "[\x7b\"op\":\"add\",\"path\":\"/metadata/annotations\",\"value\":\x7b\"kubed.appscode.com/sync\":\"true\"\x7d\x7d]")
      (some PatchTypeJSONPatch)).UID =
    (AdmissionRequest.mk "uid-1"
      (RawObject.secretJson (Secret.mk (ObjectMeta.mk "default" "s" none)))).UID :=
  C6_uid_echo
    (HttpRequest.mk
      (BodyBytes.review
        (AdmissionReview.mk
          (some (AdmissionRequest.mk "uid-1"
            (RawObject.secretJson (Secret.mk (ObjectMeta.mk "default" "s" none)))))
          none))
      "application/json" "/mutate")
    (AdmissionReview.mk
      (some (AdmissionRequest.mk "uid-1"
        (RawObject.secretJson (Secret.mk (ObjectMeta.mk "default" "s" none)))))
      none)
    (AdmissionRequest.mk "uid-1"
      (RawObject.secretJson (Secret.mk (ObjectMeta.mk "default" "s" none))))
    (AdmissionReview.mk none
      (some (AdmissionResponse.mk "uid-1" true none
        (some "[\x7b\"op\":\"add\",\"path\":\"/metadata/annotations\",\"value\":\x7b\"kubed.appscode.com/sync\":\"true\"\x7d\x7d]")
        (some PatchTypeJSONPatch))))
    (AdmissionResponse.mk "uid-1" true none
      (some "[\x7b\"op\":\"add\",\"path\":\"/metadata/annotations\",\"value\":\x7b\"kubed.appscode.com/sync\":\"true\"\x7d\x7d]")
      (some PatchTypeJSONPatch))
    rfl rfl (by decide) rfl

/-- C9: a reply envelope's response carries a patch only when the
response is allowed and tagged as a JSON patch, and only on the path
where a secret was decoded and the policy required mutation. -/
theorem C9_patch_invariant (r : HttpRequest) (env : AdmissionReview) (resp : AdmissionResponse)
    (hserve : serve r = ServeResult.ok env) (hresp : env.Response = some resp)
    (hpatch : resp.Patch.isSome = true) :
    resp.Allowed = true ∧ resp.PatchType = some PatchTypeJSONPatch ∧
    ∃ ar req secret, r.body = BodyBytes.review ar ∧ ar.Request = some req ∧
      unmarshalSecret req.Object = Except.ok secret ∧
      mutationRequired ignoredNamespaces secret.ObjectMeta = true := by
  rcases r with ⟨b, ct, p⟩
  cases b with
  | empty => simp [serve] at hserve
  | malformed msg =>
    cases hct : ct != "application/json" with
    | true => simp [serve, hct] at hserve
    | false =>
      simp [serve, hct] at hserve
      rw [← hserve] at hresp
      simp at hresp
      rw [← hresp] at hpatch
      simp at hpatch
  | review ar =>
    cases hct : ct != "application/json" with
    | true => simp [serve, hct] at hserve
    | false =>
      cases hp : p == "/mutate" with
      | false =>
        simp [serve, hct, hp] at hserve
        rw [← hserve] at hresp
        simp at hresp
      | true =>
        cases hra : ar.Request with
        | none => simp [serve, hct, hp, mutate, hra] at hserve
        | some req =>
          cases hu : unmarshalSecret req.Object with
          | error m =>
            simp [serve, hct, hp, mutate, hra, hu] at hserve
            rw [← hserve] at hresp
            simp at hresp
            rw [← hresp] at hpatch
            simp at hpatch
          | ok secret =>
            cases hmut : mutationRequired ignoredNamespaces secret.ObjectMeta with
            | false =>
              simp [serve, hct, hp, mutate, hra, hu, hmut] at hserve
              rw [← hserve] at hresp
              simp at hresp
              rw [← hresp] at hpatch
              simp at hpatch
            | true =>
              simp [serve, hct, hp, mutate, hra, hu, hmut] at hserve
              rw [← hserve] at hresp
              simp at hresp
              rw [← hresp]
              refine ⟨rfl, rfl, ar, req, secret, rfl, hra, hu, hmut⟩

/-- C9 witness: the successful-mutation reply for a `default`-namespace
secret carries its patch together with `allowed=true` and the JSONPatch
tag, on the decoded-and-mutation-required path. -/
theorem C9_patch_invariant_witness :
    (AdmissionResponse.mk "uid-1" true none
      (some "[\x7b\"op\":\"add\",\"path\":\"/metadata/annotations\",\"value\":\x7b\"kubed.appscode.com/sync\":\"true\"\x7d\x7d]")
      (some PatchTypeJSONPatch)).Allowed = true ∧
    (AdmissionResponse.mk "uid-1" true none
      (some "[\x7b\"op\":\"add\",\"path\":\"/metadata/annotations\",\"value\":\x7b\"kubed.appscode.com/sync\":\"true\"\x7d\x7d]")
      (some PatchTypeJSONPatch)).PatchType = some PatchTypeJSONPatch ∧
    ∃ ar req secret,
      (HttpRequest.mk
        (BodyBytes.review
          (AdmissionReview.mk
            (some (AdmissionRequest.mk "uid-1"
              (RawObject.secretJson (Secret.mk (ObjectMeta.mk "default" "s" none)))))
            none))
        "application/json" "/mutate").body = BodyBytes.review ar ∧
      ar.Request = some req ∧
      unmarshalSecret req.Object = Except.ok secret ∧
      mutationRequired ignoredNamespaces secret.ObjectMeta = true :=
  C9_patch_invariant
    (HttpRequest.mk
      (BodyBytes.review
        (AdmissionReview.mk
          (some (AdmissionRequest.mk "uid-1"
            (RawObject.secretJson (Secret.mk (ObjectMeta.mk "default" "s" none)))))
          none))
      "application/json" "/mutate")
    (AdmissionReview.mk none
      (some (AdmissionResponse.mk "uid-1" true none
        (some "[\x7b\"op\":\"add\",\"path\":\"/metadata/annotations\",\"value\":\x7b\"kubed.appscode.com/sync\":\"true\"\x7d\x7d]")
        (some PatchTypeJSONPatch))))
    (AdmissionResponse.mk "uid-1" true none
      (some "[\x7b\"op\":\"add\",\"path\":\"/metadata/annotations\",\"value\":\x7b\"kubed.appscode.com/sync\":\"true\"\x7d\x7d]")
      (some PatchTypeJSONPatch))
    (by decide) rfl (by decide)

/-- C10: a successfully decoded body addressed to a path other than
`/mutate` yields the empty default envelope: no response element at all,
hence no allowed flag, no patch and no echoed UID. -/
theorem C10_unmatched_path (ar : AdmissionReview) (p : String) (h : p ≠ "/mutate") :
    serve (HttpRequest.mk (BodyBytes.review ar) "application/json" p) =
      ServeResult.ok (AdmissionReview.mk none none) := by
  simp [serve, h]

/-- C10 witness: a decoded review posted to `/` gets the empty envelope. -/
theorem C10_unmatched_path_witness :
    serve (HttpRequest.mk (BodyBytes.review (AdmissionReview.mk none none))
      "application/json" "/") =
      ServeResult.ok (AdmissionReview.mk none none) :=
  C10_unmatched_path (AdmissionReview.mk none none) "/" (by decide)
